import Mathlib

/-!
# Verification of the retail-price-intelligence pipeline core

Shallow embedding of the price-intelligence pipeline
(`src/server/pipeline/tasks.py`, `src/server/pipeline/orchestrator.py`,
`src/models/utils.py`) over in-memory tables.  Prices and percentages are
modelled as exact rationals, timestamps as integers; SQL result sets are
lists ordered by an explicit stable sort, and Python truthiness of optional
numeric columns is modelled explicitly.
-/

namespace RPI

/-- One row of the `prices` table, restricted to the columns the pipeline
reads: `product_source_id`, `price`, `original_price`,
`discount_percentage`, `scraped_at`. -/
structure PriceRow where
  productSourceId : Nat
  price : ℚ
  originalPrice : Option ℚ
  discountPercentage : Option ℚ
  scrapedAt : ℤ
deriving DecidableEq, Repr

/-- Python truthiness of an optional numeric column: `None` and `0` are
falsy, any other value is truthy (`if latest_price.original_price and ...`). -/
def truthyQ : Option ℚ → Bool
  | none => false
  | some x => decide (x ≠ 0)

/-- The rows of one source-link whose `scraped_at` is at or after
`now - days` (the `Price.scraped_at >= cutoff_date` filter of
`calculate_price_metrics`). -/
def windowRows (obs : List PriceRow) (now days : ℤ) : List PriceRow :=
  obs.filter (fun o => decide (now - days ≤ o.scrapedAt))

/-- Result shape of `calculate_price_metrics`: the SQL `MIN`/`MAX`/`AVG`
aggregates, each `NULL` on an empty window. -/
structure PriceMetrics where
  min_price : Option ℚ
  max_price : Option ℚ
  avg_price : Option ℚ
deriving DecidableEq, Repr

/-- SQL `AVG`: `NULL` on the empty set, otherwise the arithmetic mean. -/
def avgList? (l : List ℚ) : Option ℚ :=
  if l = [] then none else some (l.sum / l.length)

/-- `calculate_price_metrics` (src/models/utils.py): min/max/avg of the
prices observed for one source-link in the trailing `days`-day window. -/
def calculate_price_metrics (obs : List PriceRow) (now : ℤ) (days : ℤ) :
    PriceMetrics :=
  let w := (windowRows obs now days).map PriceRow.price
  { min_price := w.min?, max_price := w.max?, avg_price := avgList? w }

/-- `DiscountAnalysisTask._determine_trend`: the ratio-of-averages trend
classifier (Variant A).  `not all([...])` treats both a missing and a zero
average as absent. -/
def determine_trend (m30 m60 m90 : PriceMetrics) : String :=
  match m30.avg_price, m60.avg_price, m90.avg_price with
  | some a30, some a60, some a90 =>
    if a30 = 0 ∨ a60 = 0 ∨ a90 = 0 then "unknown"
    else if a30 > a60 * (105 / 100) then "increasing"
    else if a30 < a60 * (95 / 100) then "decreasing"
    else if |a30 - a60| / a60 < 5 / 100 then "stable"
    else "volatile"
  | _, _, _ => "unknown"

theorem windowRows_eq_nil {obs : List PriceRow} {now days : ℤ}
    (h : ∀ o ∈ obs, o.scrapedAt < now - days) :
    windowRows obs now days = [] := by
  simp only [windowRows, List.filter_eq_nil_iff]
  intro o ho
  simpa using not_le.mpr (h o ho)

theorem determine_trend_eq (m30 m60 m90 : PriceMetrics) (a30 a60 a90 : ℚ)
    (h30 : m30.avg_price = some a30) (h60 : m60.avg_price = some a60)
    (h90 : m90.avg_price = some a90) :
    determine_trend m30 m60 m90 =
      if a30 = 0 ∨ a60 = 0 ∨ a90 = 0 then "unknown"
      else if a30 > a60 * (105 / 100) then "increasing"
      else if a30 < a60 * (95 / 100) then "decreasing"
      else if |a30 - a60| / a60 < 5 / 100 then "stable"
      else "volatile" := by
  unfold determine_trend
  rw [h30, h60, h90]

/-- C5: for a positive window with no observation at or after
`now - window`, `calculate_price_metrics` returns all three fields null —
never zero. -/
theorem metrics_empty_window_all_null (obs : List PriceRow) (now days : ℤ)
    (_hdays : 0 < days)
    (hempty : ∀ o ∈ obs, o.scrapedAt < now - days) :
    (calculate_price_metrics obs now days).min_price = none ∧
    (calculate_price_metrics obs now days).max_price = none ∧
    (calculate_price_metrics obs now days).avg_price = none := by
  have hw : windowRows obs now days = [] := windowRows_eq_nil hempty
  simp [calculate_price_metrics, hw, avgList?]

/-- C5 witness: a source-link with one observation strictly older than the
30-day window yields all-null metrics. -/
theorem metrics_empty_window_all_null_witness :
    (calculate_price_metrics [⟨1, 5, none, none, 0⟩] 100 30).min_price = none ∧
    (calculate_price_metrics [⟨1, 5, none, none, 0⟩] 100 30).max_price = none ∧
    (calculate_price_metrics [⟨1, 5, none, none, 0⟩] 100 30).avg_price = none :=
  metrics_empty_window_all_null [⟨1, 5, none, none, 0⟩] 100 30 (by decide)
    (by intro o ho; rw [List.mem_singleton] at ho; subst ho; decide)

/-- C6: Variant A returns `unknown` when any average is absent, and
otherwise tests `increasing`, `decreasing`, `stable`, `volatile` in exactly
that order (averages of positive prices are positive, hence truthy). -/
theorem trend_variant_A_branches (m30 m60 m90 : PriceMetrics) :
    ((m30.avg_price = none ∨ m60.avg_price = none ∨ m90.avg_price = none) →
      determine_trend m30 m60 m90 = "unknown") ∧
    (∀ a30 a60 a90 : ℚ, m30.avg_price = some a30 → m60.avg_price = some a60 →
      m90.avg_price = some a90 → 0 < a30 → 0 < a60 → 0 < a90 →
      ((a30 > a60 * (105 / 100) → determine_trend m30 m60 m90 = "increasing") ∧
       (¬ a30 > a60 * (105 / 100) → a30 < a60 * (95 / 100) →
         determine_trend m30 m60 m90 = "decreasing") ∧
       (¬ a30 > a60 * (105 / 100) → ¬ a30 < a60 * (95 / 100) →
         |a30 - a60| / a60 < 5 / 100 →
         determine_trend m30 m60 m90 = "stable") ∧
       (¬ a30 > a60 * (105 / 100) → ¬ a30 < a60 * (95 / 100) →
         ¬ |a30 - a60| / a60 < 5 / 100 →
         determine_trend m30 m60 m90 = "volatile"))) := by
  constructor
  · intro h
    unfold determine_trend
    rcases h with h | h | h <;> rw [h] <;>
      rcases m30.avg_price with _ | a <;> rcases m60.avg_price with _ | b <;>
      rcases m90.avg_price with _ | c <;> rfl
  · intro a30 a60 a90 h30 h60 h90 hp30 hp60 hp90
    have hz : ¬ (a30 = 0 ∨ a60 = 0 ∨ a90 = 0) := by
      push_neg
      exact ⟨ne_of_gt hp30, ne_of_gt hp60, ne_of_gt hp90⟩
    rw [determine_trend_eq m30 m60 m90 a30 a60 a90 h30 h60 h90]
    refine ⟨fun h1 => ?_, fun h1 h2 => ?_, fun h1 h2 h3 => ?_, fun h1 h2 h3 => ?_⟩
    · rw [if_neg hz, if_pos h1]
    · rw [if_neg hz, if_neg h1, if_pos h2]
    · rw [if_neg hz, if_neg h1, if_neg h2, if_pos h3]
    · rw [if_neg hz, if_neg h1, if_neg h2, if_neg h3]

/-- C6 witness: with all three averages present and equal to 1, the chain
falls through to `stable`. -/
theorem trend_variant_A_branches_witness :
    determine_trend ⟨none, none, some 1⟩ ⟨none, none, some 1⟩
      ⟨none, none, some 1⟩ = "stable" :=
  ((trend_variant_A_branches ⟨none, none, some 1⟩ ⟨none, none, some 1⟩
      ⟨none, none, some 1⟩).2 1 1 1 rfl rfl rfl (by norm_num) (by norm_num)
      (by norm_num)).2.2.1 (by norm_num) (by norm_num) (by norm_num)

/-- C7: with all three averages present and positive, Variant A returns
`volatile` exactly on the boundary `|avg30 - avg60| / avg60 = 5/100`,
equivalently `avg30 = avg60 * 1.05` or `avg30 = avg60 * 0.95`. -/
theorem trend_volatile_iff_boundary (m30 m60 m90 : PriceMetrics)
    (a30 a60 a90 : ℚ)
    (h30 : m30.avg_price = some a30) (h60 : m60.avg_price = some a60)
    (h90 : m90.avg_price = some a90)
    (hp30 : 0 < a30) (hp60 : 0 < a60) (hp90 : 0 < a90) :
    (determine_trend m30 m60 m90 = "volatile" ↔ |a30 - a60| / a60 = 5 / 100) ∧
    (|a30 - a60| / a60 = 5 / 100 ↔
      (a30 = a60 * (105 / 100) ∨ a30 = a60 * (95 / 100))) := by
  have h60ne : a60 ≠ 0 := ne_of_gt hp60
  have hbound : |a30 - a60| / a60 = 5 / 100 ↔
      (a30 = a60 * (105 / 100) ∨ a30 = a60 * (95 / 100)) := by
    rw [div_eq_iff h60ne, abs_eq (by positivity : (0:ℚ) ≤ 5 / 100 * a60)]
    constructor
    · rintro (h | h) <;> [left; right] <;> linarith
    · rintro (h | h) <;> [left; right] <;> linarith
  refine ⟨?_, hbound⟩
  have hz : ¬ (a30 = 0 ∨ a60 = 0 ∨ a90 = 0) := by
    push_neg
    exact ⟨ne_of_gt hp30, ne_of_gt hp60, ne_of_gt hp90⟩
  rw [determine_trend_eq m30 m60 m90 a30 a60 a90 h30 h60 h90, if_neg hz]
  constructor
  · intro hv
    by_cases c1 : a30 > a60 * (105 / 100)
    · rw [if_pos c1] at hv
      exact absurd hv (by decide)
    rw [if_neg c1] at hv
    by_cases c2 : a30 < a60 * (95 / 100)
    · rw [if_pos c2] at hv
      exact absurd hv (by decide)
    rw [if_neg c2] at hv
    by_cases c3 : |a30 - a60| / a60 < 5 / 100
    · rw [if_pos c3] at hv
      exact absurd hv (by decide)
    · have habs : |a30 - a60| ≤ 5 / 100 * a60 := by
        rw [abs_le]
        constructor <;> nlinarith
      have hle : |a30 - a60| / a60 ≤ 5 / 100 := by
        rw [div_le_iff₀ hp60]
        linarith
      exact le_antisymm hle (not_lt.mp c3)
  · intro hdev
    rcases hbound.mp hdev with h | h
    · rw [if_neg (by rw [h]; exact lt_irrefl _),
        if_neg (by rw [h]; intro hc; nlinarith),
        if_neg (by rw [hdev]; exact lt_irrefl _)]
    · rw [if_neg (by rw [h]; intro hc; nlinarith),
        if_neg (by rw [h]; exact lt_irrefl _),
        if_neg (by rw [hdev]; exact lt_irrefl _)]

/-! ## Discount analysis (`DiscountAnalysisTask.execute` loop body) -/

/-- `order_by(scraped_at.desc()).first()`: the row with the greatest
`scraped_at`, the earliest-listed one on ties (stable descending order). -/
def latestBy {α : Type} (key : α → ℤ) : List α → Option α
  | [] => none
  | x :: xs => some (xs.foldl (fun acc y => if key acc < key y then y else acc) x)

/-- Columns assigned to a `DiscountAnalysis` row by the task. -/
structure DiscountFields where
  min_price_30d : Option ℚ
  max_price_30d : Option ℚ
  avg_price_30d : Option ℚ
  min_price_60d : Option ℚ
  max_price_60d : Option ℚ
  avg_price_60d : Option ℚ
  min_price_90d : Option ℚ
  max_price_90d : Option ℚ
  avg_price_90d : Option ℚ
  current_price : ℚ
  claimed_discount_percentage : Option ℚ
  actual_discount_percentage : Option ℚ
  is_fake_discount : Bool
  fake_discount_reason : Option String
  price_trend : String
deriving DecidableEq, Repr

/-- The f-string `f"Current price (${...}) higher than 90-day minimum (${...})"`. -/
def fakeReasonText (current histMin : ℚ) : String :=
  "Current price ($" ++ toString current ++ ") higher than 90-day minimum ($"
    ++ toString histMin ++ ")"

/-- The guard `if latest_price.original_price and metrics_90d['min_price']:`
(Python truthiness on both optional columns). -/
def discountCond (latest : PriceRow) (m90 : PriceMetrics) : Bool :=
  truthyQ latest.originalPrice && truthyQ m90.min_price

/-- `is_fake`: inside the guard, `latest_price.price > historical_min`. -/
def isFakeB (latest : PriceRow) (m90 : PriceMetrics) : Bool :=
  discountCond latest m90 && decide (m90.min_price.getD 0 < latest.price)

/-- `fake_reason`: set exactly when `is_fake` is set. -/
def fakeReasonOf (latest : PriceRow) (m90 : PriceMetrics) : Option String :=
  if isFakeB latest m90 then
    some (fakeReasonText latest.price (m90.min_price.getD 0))
  else none

/-- `actual_discount`: inside the guard, computed when `historical_min > 0`. -/
def actualDiscountComputed (latest : PriceRow) (m90 : PriceMetrics) : Option ℚ :=
  if discountCond latest m90 && decide ((0:ℚ) < m90.min_price.getD 0) then
    some ((latest.price - m90.min_price.getD 0) / m90.min_price.getD 0 * 100)
  else none

/-- Line 105: `Decimal(str(actual_discount)) if actual_discount else None` —
Python truthiness maps both `None` and `0.0` to a stored `NULL`. -/
def storedActualDiscount (latest : PriceRow) (m90 : PriceMetrics) : Option ℚ :=
  match actualDiscountComputed latest m90 with
  | some a => if a = 0 then none else some a
  | none => none

/-- The full set of columns the task assigns for one source-link, given its
latest observation. -/
def analyzeFields (obs : List PriceRow) (now : ℤ) (latest : PriceRow) :
    DiscountFields :=
  { min_price_30d := (calculate_price_metrics obs now 30).min_price
    max_price_30d := (calculate_price_metrics obs now 30).max_price
    avg_price_30d := (calculate_price_metrics obs now 30).avg_price
    min_price_60d := (calculate_price_metrics obs now 60).min_price
    max_price_60d := (calculate_price_metrics obs now 60).max_price
    avg_price_60d := (calculate_price_metrics obs now 60).avg_price
    min_price_90d := (calculate_price_metrics obs now 90).min_price
    max_price_90d := (calculate_price_metrics obs now 90).max_price
    avg_price_90d := (calculate_price_metrics obs now 90).avg_price
    current_price := latest.price
    claimed_discount_percentage := latest.discountPercentage
    actual_discount_percentage :=
      storedActualDiscount latest (calculate_price_metrics obs now 90)
    is_fake_discount := isFakeB latest (calculate_price_metrics obs now 90)
    fake_discount_reason := fakeReasonOf latest (calculate_price_metrics obs now 90)
    price_trend :=
      determine_trend (calculate_price_metrics obs now 30)
        (calculate_price_metrics obs now 60) (calculate_price_metrics obs now 90) }

/-- One iteration of the `DiscountAnalysisTask.execute` loop over the
observations of a single source-link: `continue` on no observation,
otherwise the analyzed columns. -/
def analyzeSourceLink (obs : List PriceRow) (now : ℤ) : Option DiscountFields :=
  match latestBy PriceRow.scrapedAt obs with
  | none => none
  | some latest => some (analyzeFields obs now latest)

theorem fakeReasonText_ne_empty (c m : ℚ) : fakeReasonText c m ≠ "" := by
  intro h
  have hlen := congrArg String.length h
  simp only [fakeReasonText, String.length_append] at hlen
  have h16 : ("Current price ($" : String).length = 16 := rfl
  have h0 : ("" : String).length = 0 := rfl
  rw [h16, h0] at hlen
  omega

/-- A SQL `MIN` over positive prices is positive. -/
theorem min_price_pos {obs : List PriceRow} {now days : ℤ} {m : ℚ}
    (hpos : ∀ o ∈ obs, 0 < o.price)
    (h : (calculate_price_metrics obs now days).min_price = some m) : 0 < m := by
  have hmem : m ∈ (windowRows obs now days).map PriceRow.price :=
    List.min?_mem (fun a b => min_choice a b) h
  obtain ⟨o, ho, rfl⟩ := List.mem_map.mp hmem
  exact hpos o (List.mem_of_mem_filter ho)

/-- C1: with positive prices, a present original price and a present 90-day
minimum, the stored row is marked fake with a reason naming the current
price and the 90-day minimum exactly when the current price exceeds that
minimum; with current price at or below the minimum, or with either value
absent, it is not marked fake — and any reason ever stored is non-empty. -/
theorem discount_fake_classification (obs : List PriceRow) (now : ℤ)
    (latest : PriceRow) (f : DiscountFields)
    (hl : latestBy PriceRow.scrapedAt obs = some latest)
    (hf : analyzeSourceLink obs now = some f)
    (hpos : ∀ o ∈ obs, 0 < o.price)
    (horig : ∀ q, latest.originalPrice = some q → 0 < q) :
    (∀ op hm, latest.originalPrice = some op →
      (calculate_price_metrics obs now 90).min_price = some hm →
      ((hm < latest.price →
          f.is_fake_discount = true ∧
          f.fake_discount_reason = some (fakeReasonText latest.price hm)) ∧
       (latest.price ≤ hm →
          f.is_fake_discount = false ∧ f.fake_discount_reason = none))) ∧
    (latest.originalPrice = none →
      f.is_fake_discount = false ∧ f.fake_discount_reason = none) ∧
    ((calculate_price_metrics obs now 90).min_price = none →
      f.is_fake_discount = false ∧ f.fake_discount_reason = none) ∧
    (∀ s, f.fake_discount_reason = some s → s ≠ "") := by
  have hfe : f = analyzeFields obs now latest := by
    unfold analyzeSourceLink at hf
    rw [hl] at hf
    exact (Option.some.inj hf).symm
  subst hfe
  simp only [analyzeFields]
  refine ⟨?_, ?_, ?_, ?_⟩
  · intro op hm hop hmin
    have hop0 : 0 < op := horig op hop
    have hm0 : 0 < hm := min_price_pos hpos hmin
    have hcond : discountCond latest (calculate_price_metrics obs now 90) = true := by
      simp [discountCond, truthyQ, hop, hmin, ne_of_gt hop0, ne_of_gt hm0]
    constructor
    · intro hlt
      have hfake : isFakeB latest (calculate_price_metrics obs now 90) = true := by
        simp [isFakeB, hcond, hmin, hlt]
      exact ⟨hfake, by simp [fakeReasonOf, hfake, hmin]⟩
    · intro hle
      have hfake : isFakeB latest (calculate_price_metrics obs now 90) = false := by
        simp [isFakeB, hcond, hmin, not_lt.mpr hle]
      exact ⟨hfake, by simp [fakeReasonOf, hfake]⟩
  · intro hnone
    have hfake : isFakeB latest (calculate_price_metrics obs now 90) = false := by
      simp [isFakeB, discountCond, truthyQ, hnone]
    exact ⟨hfake, by simp [fakeReasonOf, hfake]⟩
  · intro hnone
    have hfake : isFakeB latest (calculate_price_metrics obs now 90) = false := by
      simp [isFakeB, discountCond, truthyQ, hnone]
    exact ⟨hfake, by simp [fakeReasonOf, hfake]⟩
  · intro s hs
    unfold fakeReasonOf at hs
    by_cases hfake : isFakeB latest (calculate_price_metrics obs now 90) = true
    · rw [if_pos hfake] at hs
      rw [← Option.some.inj hs]
      exact fakeReasonText_ne_empty _ _
    · rw [if_neg hfake] at hs
      exact absurd hs (Option.noConfusion)

/-- C1 witness: a source-link whose latest observation (price 100, original
price 150) sits above its 90-day minimum 80 is marked fake with the reason
naming 100 and 80. -/
theorem discount_fake_classification_witness :
    (analyzeFields [⟨1, 100, some 150, some 30, 0⟩, ⟨1, 80, none, none, -10⟩]
        0 ⟨1, 100, some 150, some 30, 0⟩).is_fake_discount = true ∧
    (analyzeFields [⟨1, 100, some 150, some 30, 0⟩, ⟨1, 80, none, none, -10⟩]
        0 ⟨1, 100, some 150, some 30, 0⟩).fake_discount_reason =
      some (fakeReasonText 100 80) :=
  ((discount_fake_classification
      [⟨1, 100, some 150, some 30, 0⟩, ⟨1, 80, none, none, -10⟩] 0
      ⟨1, 100, some 150, some 30, 0⟩ _ (by rfl) (by rfl)
      (by intro o ho; rcases List.mem_cons.mp ho with rfl | ho'
          · norm_num
          · rw [List.mem_singleton] at ho'; subst ho'; norm_num)
      (by intro q hq
          have hq' : some (150:ℚ) = some q := hq
          rw [← Option.some.inj hq']; norm_num)).1
    150 80 (by rfl) (by rfl)).1 (by norm_num)

/-- With a truthy original price and a positive 90-day minimum, line 105
stores the computed percentage exactly when it is non-zero. -/
theorem storedActualDiscount_char (latest : PriceRow) (m90 : PriceMetrics)
    (m op : ℚ) (hopEq : latest.originalPrice = some op) (hop0 : op ≠ 0)
    (hm : m90.min_price = some m) (hm0 : 0 < m) :
    storedActualDiscount latest m90 =
      if latest.price = m then none
      else some ((latest.price - m) / m * 100) := by
  have hcond : discountCond latest m90 = true := by
    simp [discountCond, truthyQ, hopEq, hm, hop0, ne_of_gt hm0]
  have hcomp : actualDiscountComputed latest m90
      = some ((latest.price - m) / m * 100) := by
    simp [actualDiscountComputed, hcond, hm, hm0]
  have hzero : ((latest.price - m) / m * 100 = 0) ↔ latest.price = m := by
    rw [mul_eq_zero, div_eq_zero_iff]
    constructor
    · rintro ((h | h) | h)
      · linarith
      · exact absurd h (ne_of_gt hm0)
      · exact absurd h (by norm_num)
    · intro h
      exact Or.inl (Or.inl (by rw [h]; ring))
  simp only [storedActualDiscount, hcomp]
  by_cases hpm : latest.price = m
  · rw [if_pos (hzero.mpr hpm), if_pos hpm]
  · rw [if_neg (fun h => hpm (hzero.mp h)), if_neg hpm]

/-- C2 counterexample: a source-link whose only observation has price 100
(equal to its own 90-day minimum) and an original price satisfies every
premise of the claim, and the claimed formula yields 0 — yet the stored
`actual_discount_percentage` is null, not 0, because line 105 tests Python
truthiness of the computed value. -/
theorem discount_actual_zero_counterexample :
    (analyzeSourceLink [⟨1, 100, some 150, none, 0⟩] 0).map
        DiscountFields.actual_discount_percentage = some none ∧
    (analyzeSourceLink [⟨1, 100, some 150, none, 0⟩] 0).map
        DiscountFields.actual_discount_percentage ≠ some (some 0) ∧
    (calculate_price_metrics [⟨1, 100, some 150, none, 0⟩] 0 90).min_price =
      some 100 ∧
    ((100 : ℚ) - 100) / 100 * 100 = 0 := by
  have hmap : (analyzeSourceLink [⟨1, 100, some 150, none, 0⟩] 0).map
      DiscountFields.actual_discount_percentage =
      some (storedActualDiscount ⟨1, 100, some 150, none, 0⟩
        (calculate_price_metrics [⟨1, 100, some 150, none, 0⟩] 0 90)) := rfl
  have hstored : storedActualDiscount ⟨1, 100, some 150, none, 0⟩
      (calculate_price_metrics [⟨1, 100, some 150, none, 0⟩] 0 90) = none := by
    rw [storedActualDiscount_char _ _ 100 150 rfl (by norm_num) rfl (by norm_num)]
    rw [if_pos rfl]
  refine ⟨?_, ?_, rfl, by norm_num⟩
  · rw [hmap, hstored]
  · rw [hmap, hstored]
    intro h
    exact Option.noConfusion (Option.some.inj h)

/-- C2 amended: with a truthy original price and a positive 90-day minimum,
the stored `actual_discount_percentage` equals
`(current − 90d-min) / 90d-min × 100` whenever that value is non-zero; when
the current price equals the 90-day minimum the computed 0 is stored as
null/absent. -/
theorem discount_actual_discount_amended (obs : List PriceRow) (now : ℤ)
    (latest : PriceRow) (f : DiscountFields) (m : ℚ)
    (hl : latestBy PriceRow.scrapedAt obs = some latest)
    (hf : analyzeSourceLink obs now = some f)
    (hpos : ∀ o ∈ obs, 0 < o.price)
    (hop : ∃ op, latest.originalPrice = some op ∧ op ≠ 0)
    (hm : (calculate_price_metrics obs now 90).min_price = some m) :
    f.actual_discount_percentage =
      if latest.price = m then none
      else some ((latest.price - m) / m * 100) := by
  have hfe : f = analyzeFields obs now latest := by
    unfold analyzeSourceLink at hf
    rw [hl] at hf
    exact (Option.some.inj hf).symm
  subst hfe
  obtain ⟨op, hopEq, hop0⟩ := hop
  have hm0 : 0 < m := min_price_pos hpos hm
  simp only [analyzeFields]
  exact storedActualDiscount_char latest _ m op hopEq hop0 hm hm0

/-- C2 amended witness: current price 100 above 90-day minimum 80 stores
`(100 − 80) / 80 × 100 = 25`. -/
theorem discount_actual_discount_amended_witness :
    (analyzeFields [⟨1, 100, some 150, some 30, 0⟩, ⟨1, 80, none, none, -10⟩]
        0 ⟨1, 100, some 150, some 30, 0⟩).actual_discount_percentage =
      some 25 := by
  rw [discount_actual_discount_amended
      [⟨1, 100, some 150, some 30, 0⟩, ⟨1, 80, none, none, -10⟩] 0
      ⟨1, 100, some 150, some 30, 0⟩ _ 80 (by rfl) (by rfl)
      (by intro o ho; rcases List.mem_cons.mp ho with rfl | ho'
          · norm_num
          · rw [List.mem_singleton] at ho'; subst ho'; norm_num)
      ⟨150, rfl, by norm_num⟩ (by rfl)]
  rw [if_neg (by norm_num : ¬(100:ℚ) = 80)]
  exact congrArg some (by norm_num)

/-- C7 witness: averages (1.05, 1, 1) sit exactly on the boundary and are
classified `volatile`. -/
theorem trend_volatile_iff_boundary_witness :
    determine_trend ⟨none, none, some (21/20)⟩ ⟨none, none, some 1⟩
      ⟨none, none, some 1⟩ = "volatile" :=
  (trend_volatile_iff_boundary ⟨none, none, some (21/20)⟩ ⟨none, none, some 1⟩
      ⟨none, none, some 1⟩ (21/20) 1 1 rfl rfl rfl (by norm_num) (by norm_num)
      (by norm_num)).1.mpr (by norm_num)

/-! ## Orchestrator (`PipelineOrchestrator.run`) -/

/-- An engine as the orchestrator sees it: a name and an `execute` that
either returns a result or raises (modelled as `Except`). -/
structure Engine where
  name : String
  exec : Except String String

/-- One entry of the report's `tasks` list. -/
structure TaskReport where
  task : String
  status : String
  detail : String
deriving DecidableEq, Repr

/-- The run report (timestamps and duration omitted: wall-clock only). -/
structure RunReport where
  total_tasks : Nat
  successful : Nat
  failed : Nat
  tasks : List TaskReport
deriving DecidableEq, Repr

/-- The `try/except` body of the orchestrator loop for one task. -/
def runStep (acc : RunReport) (e : Engine) : RunReport :=
  match e.exec with
  | .ok r =>
    { total_tasks := acc.total_tasks
      successful := acc.successful + 1
      failed := acc.failed
      tasks := acc.tasks ++ [⟨e.name, "success", r⟩] }
  | .error m =>
    { total_tasks := acc.total_tasks
      successful := acc.successful
      failed := acc.failed + 1
      tasks := acc.tasks ++ [⟨e.name, "failed", m⟩] }

/-- `PipelineOrchestrator.run`: every task is attempted in order and the
report is always produced (a total function — nothing escapes the loop). -/
def run (engines : List Engine) : RunReport :=
  engines.foldl runStep
    { total_tasks := engines.length, successful := 0, failed := 0, tasks := [] }

/-- The report entry the loop records for one engine. -/
def reportEntry (e : Engine) : TaskReport :=
  match e.exec with
  | .ok r => ⟨e.name, "success", r⟩
  | .error m => ⟨e.name, "failed", m⟩

theorem run_foldl_spec (engines : List Engine) (acc : RunReport) :
    (engines.foldl runStep acc).total_tasks = acc.total_tasks ∧
    (engines.foldl runStep acc).successful + (engines.foldl runStep acc).failed
      = acc.successful + acc.failed + engines.length ∧
    (engines.foldl runStep acc).tasks = acc.tasks ++ engines.map reportEntry := by
  induction engines generalizing acc with
  | nil => simp
  | cons e es ih =>
    obtain ⟨ih1, ih2, ih3⟩ := ih (runStep acc e)
    rw [List.foldl_cons]
    refine ⟨?_, ?_, ?_⟩
    · rw [ih1]
      cases he : e.exec <;> simp [runStep, he]
    · rw [ih2]
      cases he : e.exec <;> simp [runStep, he, List.length_cons] <;> omega
    · rw [ih3]
      cases he : e.exec <;> simp [runStep, reportEntry, he]

/-- C4: `run` is total (never raises), reports `total_tasks` equal to the
number of engines with `successful + failed = total_tasks`, records every
engine in order, and records each raising engine as `failed` with the
exception's message. -/
theorem orchestrator_run_report (engines : List Engine) :
    (run engines).total_tasks = engines.length ∧
    (run engines).successful + (run engines).failed = engines.length ∧
    (run engines).tasks = engines.map reportEntry ∧
    (∀ i : Nat, ∀ e : Engine, engines[i]? = some e → ∀ m : String,
      e.exec = .error m →
      (run engines).tasks[i]? = some ⟨e.name, "failed", m⟩) := by
  obtain ⟨h1, h2, h3⟩ := run_foldl_spec engines
    { total_tasks := engines.length, successful := 0, failed := 0, tasks := [] }
  rw [run]
  refine ⟨h1, by simpa using h2, by simpa using h3, ?_⟩
  intro i e hi m hm
  rw [h3]
  simp only [List.nil_append, List.getElem?_map, hi]
  rw [show Option.map reportEntry (some e) = some (reportEntry e) from rfl]
  rw [show reportEntry e = ⟨e.name, "failed", m⟩ from by unfold reportEntry; rw [hm]]

/-- C4 witness: three engines with the second raising yield
`total_tasks = 3`, `successful + failed = 3`, `successful = 2`,
`failed = 1`, and the second report entry is the failure with its message. -/
theorem orchestrator_run_report_witness :
    (run [⟨"DiscountAnalysisTask", .ok "r1"⟩, ⟨"PriceComparisonTask", .error "boom"⟩,
        ⟨"PriceAlertTask", .ok "r3"⟩]).total_tasks = 3 ∧
    (run [⟨"DiscountAnalysisTask", .ok "r1"⟩, ⟨"PriceComparisonTask", .error "boom"⟩,
        ⟨"PriceAlertTask", .ok "r3"⟩]).successful +
      (run [⟨"DiscountAnalysisTask", .ok "r1"⟩, ⟨"PriceComparisonTask", .error "boom"⟩,
        ⟨"PriceAlertTask", .ok "r3"⟩]).failed = 3 ∧
    (run [⟨"DiscountAnalysisTask", .ok "r1"⟩, ⟨"PriceComparisonTask", .error "boom"⟩,
        ⟨"PriceAlertTask", .ok "r3"⟩]).successful = 2 ∧
    (run [⟨"DiscountAnalysisTask", .ok "r1"⟩, ⟨"PriceComparisonTask", .error "boom"⟩,
        ⟨"PriceAlertTask", .ok "r3"⟩]).failed = 1 ∧
    (run [⟨"DiscountAnalysisTask", .ok "r1"⟩, ⟨"PriceComparisonTask", .error "boom"⟩,
        ⟨"PriceAlertTask", .ok "r3"⟩]).tasks[1]? =
      some ⟨"PriceComparisonTask", "failed", "boom"⟩ := by
  obtain ⟨h1, h2, _, h4⟩ := orchestrator_run_report
    [⟨"DiscountAnalysisTask", .ok "r1"⟩, ⟨"PriceComparisonTask", .error "boom"⟩,
      ⟨"PriceAlertTask", .ok "r3"⟩]
  exact ⟨h1, h2, by decide, by decide,
    h4 1 ⟨"PriceComparisonTask", .error "boom"⟩ rfl "boom" rfl⟩

/-! ## Snapshot upsert (`DiscountAnalysis` keyed by (source-link, date)) -/

/-- One stored `DiscountAnalysis` row. -/
structure DiscountRow where
  productSourceId : Nat
  analysisDate : ℤ
  fields : DiscountFields
deriving DecidableEq, Repr

/-- The `and_(product_source_id == ps.id, analysis_date == today)` filter. -/
def snapshotKeyMatches (ps : Nat) (d : ℤ) (r : DiscountRow) : Bool :=
  r.productSourceId == ps && r.analysisDate == d

/-- The `.first()` lookup before the upsert decision. -/
def findSnapshot (t : List DiscountRow) (ps : Nat) (d : ℤ) : Option DiscountRow :=
  t.find? (snapshotKeyMatches ps d)

/-- Overwrite the first row with the key in place (the ORM mutating the
fetched row). -/
def setSnapshotFields : List DiscountRow → Nat → ℤ → DiscountFields → List DiscountRow
  | [], _, _, _ => []
  | r :: rs, ps, d, f =>
    if snapshotKeyMatches ps d r then ⟨ps, d, f⟩ :: rs
    else r :: setSnapshotFields rs ps d f

/-- Lines 80–110: fetch today's row; mutate it if present, else add a new
row; assign the analyzed fields. -/
def upsertDiscount (t : List DiscountRow) (ps : Nat) (d : ℤ)
    (f : DiscountFields) : List DiscountRow :=
  match findSnapshot t ps d with
  | some _ => setSnapshotFields t ps d f
  | none => t ++ [⟨ps, d, f⟩]

/-- One full engine pass for one source-link on one day: skip when there is
no observation, otherwise upsert the analyzed fields. -/
def discountRunStep (t : List DiscountRow) (obs : List PriceRow) (now : ℤ)
    (ps : Nat) (today : ℤ) : List DiscountRow :=
  match analyzeSourceLink obs now with
  | none => t
  | some f => upsertDiscount t ps today f

/-- Number of stored rows with the given (source-link, date) key. -/
def countKey (t : List DiscountRow) (ps : Nat) (d : ℤ) : Nat :=
  (t.filter (snapshotKeyMatches ps d)).length

theorem snapshotKeyMatches_self (ps : Nat) (d : ℤ) (f : DiscountFields) :
    snapshotKeyMatches ps d ⟨ps, d, f⟩ = true := by
  simp [snapshotKeyMatches]

theorem setSnapshotFields_spec (ps : Nat) (d : ℤ) (f : DiscountFields)
    (t : List DiscountRow) (hfind : (findSnapshot t ps d).isSome) :
    countKey (setSnapshotFields t ps d f) ps d = countKey t ps d ∧
    findSnapshot (setSnapshotFields t ps d f) ps d = some ⟨ps, d, f⟩ := by
  induction t with
  | nil => simp [findSnapshot] at hfind
  | cons r rs ih =>
    by_cases hr : snapshotKeyMatches ps d r = true
    · rw [setSnapshotFields, if_pos hr]
      constructor
      · rw [countKey, countKey, List.filter_cons, List.filter_cons, if_pos hr,
          if_pos (snapshotKeyMatches_self ps d f)]
        simp
      · rw [findSnapshot, List.find?_cons_of_pos _ (snapshotKeyMatches_self ps d f)]
    · have hfind' : (findSnapshot rs ps d).isSome := by
        rw [findSnapshot, List.find?_cons_of_neg _ hr] at hfind
        exact hfind
      obtain ⟨ih1, ih2⟩ := ih hfind'
      rw [setSnapshotFields, if_neg hr]
      constructor
      · rw [countKey, countKey, List.filter_cons, List.filter_cons, if_neg hr,
          if_neg hr]
        exact ih1
      · rw [findSnapshot, List.find?_cons_of_neg _ hr]
        exact ih2

theorem find?_append_of_none {α : Type} (p : α → Bool) (l1 l2 : List α)
    (h : l1.find? p = none) : (l1 ++ l2).find? p = l2.find? p := by
  induction l1 with
  | nil => rfl
  | cons x xs ih =>
    by_cases hx : p x = true
    · rw [List.find?_cons_of_pos _ hx] at h
      exact Option.noConfusion h
    · rw [List.find?_cons_of_neg _ hx] at h
      rw [List.cons_append, List.find?_cons_of_neg _ hx]
      exact ih h

/-- The upsert leaves exactly one row with the key, holding the new fields. -/
theorem upsert_one (t : List DiscountRow) (ps : Nat) (d : ℤ)
    (f : DiscountFields) (hkey : countKey t ps d ≤ 1) :
    countKey (upsertDiscount t ps d f) ps d = 1 ∧
    findSnapshot (upsertDiscount t ps d f) ps d = some ⟨ps, d, f⟩ := by
  rw [upsertDiscount]
  cases hfind : findSnapshot t ps d with
  | none =>
    have hnil : t.filter (snapshotKeyMatches ps d) = [] := by
      rw [List.filter_eq_nil_iff]
      intro r hr
      have := List.find?_eq_none.mp hfind r hr
      simpa using this
    constructor
    · rw [countKey, List.filter_append, hnil, List.nil_append, List.filter_cons,
        if_pos (snapshotKeyMatches_self ps d f)]
      rfl
    · rw [findSnapshot, find?_append_of_none _ t _ hfind,
        List.find?_cons_of_pos _ (snapshotKeyMatches_self ps d f)]
  | some r =>
    obtain ⟨h1, h2⟩ := setSnapshotFields_spec ps d f t (by rw [hfind]; rfl)
    refine ⟨?_, h2⟩
    rw [h1]
    have hfind' : t.find? (snapshotKeyMatches ps d) = some r := hfind
    have hmem : r ∈ t.filter (snapshotKeyMatches ps d) :=
      List.mem_filter.mpr
        ⟨List.mem_of_find?_eq_some hfind', List.find?_some hfind'⟩
    have hge : 0 < countKey t ps d := by
      rw [countKey]
      exact List.length_pos.mpr (List.ne_nil_of_mem hmem)
    omega

/-- C9: starting from a table satisfying the unique-(source-link, date) key
invariant, running the discount step twice for the same source-link and day
leaves exactly one row for that key, and its fields are the second run's
analyzed fields — an in-place overwrite, never a duplicate insert. -/
theorem discount_snapshot_upsert_idempotent (t : List DiscountRow)
    (obs1 obs2 : List PriceRow) (now1 now2 : ℤ) (ps : Nat) (today : ℤ)
    (f2 : DiscountFields)
    (h2 : analyzeSourceLink obs2 now2 = some f2)
    (hkey : countKey t ps today ≤ 1) :
    countKey (discountRunStep (discountRunStep t obs1 now1 ps today)
        obs2 now2 ps today) ps today = 1 ∧
    findSnapshot (discountRunStep (discountRunStep t obs1 now1 ps today)
        obs2 now2 ps today) ps today = some ⟨ps, today, f2⟩ := by
  have h1 : countKey (discountRunStep t obs1 now1 ps today) ps today ≤ 1 := by
    rw [discountRunStep]
    cases analyzeSourceLink obs1 now1 with
    | none => exact hkey
    | some f1 => exact le_of_eq (upsert_one t ps today f1 hkey).1
  have hstep2 : discountRunStep (discountRunStep t obs1 now1 ps today)
      obs2 now2 ps today
      = upsertDiscount (discountRunStep t obs1 now1 ps today) ps today f2 := by
    rw [discountRunStep, h2]
  rw [hstep2]
  exact upsert_one _ ps today f2 h1

/-- C9 witness: an empty table, a first run seeing price 100 and a second
run seeing price 90, leave exactly one row for (source-link 1, today) whose
fields are the second run's analysis. -/
theorem discount_snapshot_upsert_idempotent_witness :
    countKey (discountRunStep
        (discountRunStep [] [⟨1, 100, none, none, 0⟩] 0 1 0)
        [⟨1, 90, none, none, 5⟩] 0 1 0) 1 0 = 1 ∧
    findSnapshot (discountRunStep
        (discountRunStep [] [⟨1, 100, none, none, 0⟩] 0 1 0)
        [⟨1, 90, none, none, 5⟩] 0 1 0) 1 0 =
      some ⟨1, 0, analyzeFields [⟨1, 90, none, none, 5⟩] 0 ⟨1, 90, none, none, 5⟩⟩ :=
  discount_snapshot_upsert_idempotent [] [⟨1, 100, none, none, 0⟩]
    [⟨1, 90, none, none, 5⟩] 0 0 1 0
    (analyzeFields [⟨1, 90, none, none, 5⟩] 0 ⟨1, 90, none, none, 5⟩)
    (by rfl) (by decide)

/-! ## Price comparison (`PriceComparisonTask.execute`) -/

/-- One row of the `product_sources` table, restricted to the columns the
comparison task reads. -/
structure SourceLinkRec where
  id : Nat
  productId : Nat
  sourceId : Nat
  isActive : Bool
deriving DecidableEq, Repr

/-- The tables the comparison and alert tasks query. -/
structure DB where
  sourceLinks : List SourceLinkRec
  prices : List PriceRow
deriving Repr

/-- The dict `{'price', 'product_source_id', 'source_id'}` collected per
source-link. -/
structure LatestEntry where
  price : ℚ
  productSourceId : Nat
  sourceId : Nat
deriving DecidableEq, Repr

/-- Active source-links of one product (lines 158–161). -/
def activeLinksOf (db : DB) (pid : Nat) : List SourceLinkRec :=
  db.sourceLinks.filter (fun sl => sl.productId == pid && sl.isActive)

/-- The product-selection query (lines 152–154): join on active
source-links, `having count > 1`. -/
def comparisonSelected (db : DB) (pid : Nat) : Bool :=
  decide (1 < (activeLinksOf db pid).length)

/-- All price rows of one source-link. -/
def pricesOf (db : DB) (psId : Nat) : List PriceRow :=
  db.prices.filter (fun p => p.productSourceId == psId)

/-- The `latest_prices` list of lines 163–174: per active source-link, its
latest observation if any. -/
def latestEntries (db : DB) (pid : Nat) : List LatestEntry :=
  (activeLinksOf db pid).filterMap (fun ps =>
    (latestBy PriceRow.scrapedAt (pricesOf db ps.id)).map
      (fun lp => ⟨lp.price, ps.id, ps.sourceId⟩))

/-- Columns assigned to a `PriceComparison` row. -/
structure ComparisonFields where
  best_price : ℚ
  best_price_source_id : Nat
  best_price_product_source_id : Nat
  min_price : ℚ
  max_price : ℚ
  price_variance : ℝ
  source_count : Nat

/-- Python `min` over a non-empty list. -/
def listMin (x : ℚ) (xs : List ℚ) : ℚ := xs.foldl min x

/-- Python `max` over a non-empty list. -/
def listMax (x : ℚ) (xs : List ℚ) : ℚ := xs.foldl max x

/-- Python `min(latest_prices, key=...)`: the first entry of minimal price. -/
def minByPrice (e : LatestEntry) (es : List LatestEntry) : LatestEntry :=
  es.foldl (fun acc x => if x.price < acc.price then x else acc) e

/-- The `prices` float list of line 179. -/
def entryPrices (e : LatestEntry) (es : List LatestEntry) : List ℚ :=
  e.price :: es.map LatestEntry.price

/-- Line 184: `sum((p - avg_price) ** 2 for p in prices) / len(prices)` —
the population variance (divide by `n`). -/
def popVariance (l : List ℚ) : ℚ :=
  (l.map (fun p => (p - l.sum / l.length) ^ 2)).sum / l.length

/-- Columns computed for one product from its non-empty latest-price list
(lines 179–209): `stddev = variance ** 0.5` is stored as `price_variance`
(noncomputable only through the real square root). -/
noncomputable def compareFields (e : LatestEntry) (es : List LatestEntry) : ComparisonFields :=
  { best_price := listMin e.price (es.map LatestEntry.price)
    best_price_source_id := (minByPrice e es).sourceId
    best_price_product_source_id := (minByPrice e es).productSourceId
    min_price := listMin e.price (es.map LatestEntry.price)
    max_price := listMax e.price (es.map LatestEntry.price)
    price_variance := Real.sqrt ((popVariance (entryPrices e es) : ℚ) : ℝ)
    source_count := (e :: es).length }

/-- One iteration of the product loop: `continue` when no source-link has
an observation, otherwise the computed comparison columns. -/
noncomputable def compareProduct (db : DB) (pid : Nat) : Option ComparisonFields :=
  match latestEntries db pid with
  | [] => none
  | e :: es => some (compareFields e es)

theorem listMin_mem (x : ℚ) (xs : List ℚ) : listMin x xs ∈ x :: xs := by
  simp only [listMin]
  induction xs generalizing x with
  | nil => exact List.mem_singleton_self x
  | cons y ys ih =>
    simp only [List.foldl_cons]
    rcases List.mem_cons.mp (ih (min x y)) with h' | h'
    · rw [h']
      rcases min_choice x y with hm | hm <;> rw [hm]
      · exact List.mem_cons_self x (y :: ys)
      · exact List.mem_cons_of_mem x (List.mem_cons_self y ys)
    · exact List.mem_cons_of_mem x (List.mem_cons_of_mem y h')

theorem listMin_le (x : ℚ) (xs : List ℚ) : ∀ p ∈ x :: xs, listMin x xs ≤ p := by
  simp only [listMin]
  induction xs generalizing x with
  | nil =>
    intro p hp
    rw [List.mem_singleton] at hp
    subst hp
    exact le_refl _
  | cons y ys ih =>
    intro p hp
    simp only [List.foldl_cons]
    have hhead := ih (min x y) (min x y) (List.mem_cons_self _ _)
    rcases List.mem_cons.mp hp with h1 | hp'
    · rw [h1]
      exact le_trans hhead (min_le_left x y)
    rcases List.mem_cons.mp hp' with h2 | hp''
    · rw [h2]
      exact le_trans hhead (min_le_right x y)
    · exact ih (min x y) p (List.mem_cons_of_mem _ hp'')

theorem listMax_ge (x : ℚ) (xs : List ℚ) : ∀ p ∈ x :: xs, p ≤ listMax x xs := by
  simp only [listMax]
  induction xs generalizing x with
  | nil =>
    intro p hp
    rw [List.mem_singleton] at hp
    subst hp
    exact le_refl _
  | cons y ys ih =>
    intro p hp
    simp only [List.foldl_cons]
    have hhead := ih (max x y) (max x y) (List.mem_cons_self _ _)
    rcases List.mem_cons.mp hp with h1 | hp'
    · rw [h1]
      exact le_trans (le_max_left x y) hhead
    rcases List.mem_cons.mp hp' with h2 | hp''
    · rw [h2]
      exact le_trans (le_max_right x y) hhead
    · exact ih (max x y) p (List.mem_cons_of_mem _ hp'')

theorem minByPrice_mem (e : LatestEntry) (es : List LatestEntry) :
    minByPrice e es ∈ e :: es := by
  simp only [minByPrice]
  induction es generalizing e with
  | nil => exact List.mem_singleton_self e
  | cons y ys ih =>
    simp only [List.foldl_cons]
    rcases List.mem_cons.mp (ih (if y.price < e.price then y else e)) with h' | h'
    · rw [h']
      by_cases hc : y.price < e.price
      · rw [if_pos hc]
        exact List.mem_cons_of_mem e (List.mem_cons_self y ys)
      · rw [if_neg hc]
        exact List.mem_cons_self e (y :: ys)
    · exact List.mem_cons_of_mem e (List.mem_cons_of_mem y h')

theorem minByPrice_price (e : LatestEntry) (es : List LatestEntry) :
    (minByPrice e es).price = listMin e.price (es.map LatestEntry.price) := by
  simp only [minByPrice, listMin]
  induction es generalizing e with
  | nil => rfl
  | cons y ys ih =>
    simp only [List.map_cons, List.foldl_cons]
    rw [ih (if y.price < e.price then y else e)]
    have hstep : (if y.price < e.price then y else e).price = min e.price y.price := by
      by_cases hc : y.price < e.price
      · rw [if_pos hc, min_eq_right (le_of_lt hc)]
      · rw [if_neg hc, min_eq_left (not_lt.mp hc)]
    rw [hstep]

theorem popVariance_nonneg (l : List ℚ) : 0 ≤ popVariance l := by
  rw [popVariance]
  apply div_nonneg
  · apply List.sum_nonneg
    intro q hq
    obtain ⟨p, _, rfl⟩ := List.mem_map.mp hq
    exact sq_nonneg _
  · exact Nat.cast_nonneg _

/-- C8: the stored `price_variance` is the population standard deviation of
the collected latest prices — non-negative with square equal to
`Σ (p − μ)² / n` — the stored best price is the minimum of those prices
(`min_price` coincides with it), and the entry that produced the minimum is
recorded as the best-price source. -/
theorem comparison_stddev_best (db : DB) (pid : Nat) (e : LatestEntry)
    (es : List LatestEntry) (f : ComparisonFields)
    (hle : latestEntries db pid = e :: es)
    (hf : compareProduct db pid = some f) :
    (0 ≤ f.price_variance ∧
      f.price_variance ^ 2 = ((popVariance (entryPrices e es) : ℚ) : ℝ)) ∧
    (f.best_price ∈ entryPrices e es ∧ ∀ p ∈ entryPrices e es, f.best_price ≤ p) ∧
    f.min_price = f.best_price ∧
    (∃ b, b ∈ e :: es ∧ b.price = f.best_price ∧
      f.best_price_source_id = b.sourceId ∧
      f.best_price_product_source_id = b.productSourceId) := by
  have hfe : f = compareFields e es := by
    unfold compareProduct at hf
    rw [hle] at hf
    exact (Option.some.inj hf).symm
  subst hfe
  simp only [compareFields]
  refine ⟨⟨Real.sqrt_nonneg _,
    Real.sq_sqrt (by exact_mod_cast popVariance_nonneg (entryPrices e es))⟩,
    ⟨?_, ?_⟩, by trivial, ?_⟩
  · exact listMin_mem e.price (es.map LatestEntry.price)
  · exact listMin_le e.price (es.map LatestEntry.price)
  · exact ⟨minByPrice e es, minByPrice_mem e es, minByPrice_price e es,
      by trivial, by trivial⟩

/-- Concrete tables: product 1 listed at two active source-links with
latest prices 3 and 1. -/
def wcDB : DB :=
  ⟨[⟨1, 1, 10, true⟩, ⟨2, 1, 20, true⟩],
   [⟨1, 3, none, none, 0⟩, ⟨2, 1, none, none, 0⟩]⟩

/-- C8 witness: over latest prices {3, 1} the stored deviation is 1
(population stddev of mean 2), best price 1 from source 20. -/
theorem comparison_stddev_best_witness :
    0 ≤ (compareFields ⟨3, 1, 10⟩ [⟨1, 2, 20⟩]).price_variance ∧
    (compareFields ⟨3, 1, 10⟩ [⟨1, 2, 20⟩]).price_variance ^ 2 = 1 ∧
    (compareFields ⟨3, 1, 10⟩ [⟨1, 2, 20⟩]).price_variance = 1 ∧
    (compareFields ⟨3, 1, 10⟩ [⟨1, 2, 20⟩]).best_price = 1 ∧
    (compareFields ⟨3, 1, 10⟩ [⟨1, 2, 20⟩]).best_price_source_id = 20 := by
  obtain ⟨⟨h1, h2⟩, ⟨hmem, hle⟩, _hminb, b, hbmem, hbp, hbs, _hbps⟩ :=
    comparison_stddev_best wcDB 1 ⟨3, 1, 10⟩ [⟨1, 2, 20⟩]
      (compareFields ⟨3, 1, 10⟩ [⟨1, 2, 20⟩]) (by rfl) (by rfl)
  have hpv : popVariance (entryPrices ⟨3, 1, 10⟩ [⟨1, 2, 20⟩]) = 1 := by
    norm_num [popVariance, entryPrices]
  have hbest : (compareFields ⟨3, 1, 10⟩ [⟨1, 2, 20⟩]).best_price = 1 := by
    rcases List.mem_cons.mp hmem with h | h
    · exfalso
      have hone := hle 1 (by simp [entryPrices])
      rw [h] at hone
      norm_num at hone
    · simp only [List.map_cons, List.map_nil, List.mem_singleton] at h
      exact h
  have hsq : (compareFields ⟨3, 1, 10⟩ [⟨1, 2, 20⟩]).price_variance ^ 2 = 1 := by
    rw [h2, hpv]
    norm_num
  refine ⟨h1, hsq, ?_, hbest, ?_⟩
  · show Real.sqrt _ = 1
    rw [hpv, show ((1:ℚ):ℝ) = 1 from by norm_num]
    exact Real.sqrt_one
  · rcases List.mem_cons.mp hbmem with h | h
    · rw [h, hbest] at hbp
      norm_num at hbp
    · rw [List.mem_singleton] at h
      rw [hbs, h]

/-- C10: a selected product (≥ 2 active source-links) is skipped exactly
when no source-link has any observation; with exactly one observed
source-link the snapshot is still produced, with best = min = max = that
latest price, deviation 0 and `source_count = 1`. -/
theorem comparison_single_observed_source (db : DB) (pid : Nat)
    (_hsel : comparisonSelected db pid = true) :
    (compareProduct db pid = none ↔ latestEntries db pid = []) ∧
    (latestEntries db pid = [] ↔
      ∀ ps ∈ activeLinksOf db pid,
        latestBy PriceRow.scrapedAt (pricesOf db ps.id) = none) ∧
    (∀ e : LatestEntry, latestEntries db pid = [e] →
      compareProduct db pid = some
        { best_price := e.price
          best_price_source_id := e.sourceId
          best_price_product_source_id := e.productSourceId
          min_price := e.price
          max_price := e.price
          price_variance := 0
          source_count := 1 }) := by
  refine ⟨?_, ?_, ?_⟩
  · cases hle : latestEntries db pid with
    | nil => simp [compareProduct, hle]
    | cons x xs => simp [compareProduct, hle]
  · rw [latestEntries, List.filterMap_eq_nil_iff]
    constructor
    · intro h ps hps
      exact Option.map_eq_none'.mp (h ps hps)
    · intro h ps hps
      rw [h ps hps]
      rfl
  · intro e hle
    have hstep : compareProduct db pid = some (compareFields e []) := by
      rw [compareProduct, hle]
    rw [hstep]
    refine congrArg some ?_
    have hvar0 : ((popVariance (entryPrices e []) : ℚ) : ℝ) = 0 := by
      norm_num [popVariance, entryPrices]
    simp only [compareFields, ComparisonFields.mk.injEq]
    exact ⟨rfl, rfl, rfl, rfl, rfl, by rw [hvar0, Real.sqrt_zero], rfl⟩

/-- Concrete tables: product 1 listed at two active source-links of which
only the first has an observation. -/
def wcDB1 : DB :=
  ⟨[⟨1, 1, 10, true⟩, ⟨2, 1, 20, true⟩], [⟨1, 100, none, none, 0⟩]⟩

/-- C10 witness: with two active source-links and a single observed price
100, a snapshot is produced with best = min = max = 100, deviation 0 and
`source_count = 1`. -/
theorem comparison_single_observed_source_witness :
    compareProduct wcDB1 1 = some
      { best_price := 100
        best_price_source_id := 10
        best_price_product_source_id := 1
        min_price := 100
        max_price := 100
        price_variance := 0
        source_count := 1 } ∧
    comparisonSelected wcDB1 1 = true :=
  ⟨(comparison_single_observed_source wcDB1 1 (by rfl)).2.2 ⟨100, 1, 10⟩ (by rfl),
   by rfl⟩

/-! ## Price alerts (`PriceAlertTask.execute`) -/

/-- One row of the `price_alerts` table. -/
structure PriceAlert where
  id : Nat
  productId : Nat
  targetPrice : Option ℚ
  priceDropPercentage : Option ℚ
  isActive : Bool
  lastTriggeredAt : Option ℤ
  triggerCount : Nat
deriving DecidableEq, Repr

/-- Stable descending insertion by key: an element goes after
strictly-greater keys and before equal ones. -/
def insertDesc {α : Type} (key : α → ℤ) (x : α) : List α → List α
  | [] => [x]
  | y :: ys => if key y > key x then y :: insertDesc key x ys else x :: y :: ys

/-- `order_by(scraped_at.desc())` as a stable descending sort. -/
def sortByDesc {α : Type} (key : α → ℤ) (l : List α) : List α :=
  l.foldr (insertDesc key) []

/-- The join `Price ⋈ ProductSource` on the given product — note the old
price query (lines 261–263) has **no** `is_active` filter. -/
def joinsProduct (db : DB) (pid : Nat) (p : PriceRow) : Bool :=
  db.sourceLinks.any (fun sl => sl.id == p.productSourceId && sl.productId == pid)

/-- The same join restricted to active source-links (lines 237–239). -/
def joinsActiveProduct (db : DB) (pid : Nat) (p : PriceRow) : Bool :=
  db.sourceLinks.any (fun sl =>
    sl.id == p.productSourceId && sl.productId == pid && sl.isActive)

/-- Lines 237–240: all prices of the product's active source-links, newest
first. -/
def alertLatestPrices (db : DB) (pid : Nat) : List PriceRow :=
  sortByDesc PriceRow.scrapedAt (db.prices.filter (joinsActiveProduct db pid))

/-- Lines 245–249: the `source_prices` dict keeps the first (most recent)
row per source-link, in first-seen order. -/
def firstPerSource (l : List PriceRow) : List PriceRow :=
  l.foldl (fun acc p =>
    if acc.any (fun q => q.productSourceId == p.productSourceId) then acc
    else acc ++ [p]) []

/-- Lines 260–264: the product's prices at or before the cutoff — across
all its source-links, active or not — newest first, **limited to `k`
rows** (`limit(len(source_prices))`). -/
def alertOldPrices (db : DB) (pid : Nat) (cutoff : ℤ) (k : Nat) : List PriceRow :=
  (sortByDesc PriceRow.scrapedAt (db.prices.filter (fun p =>
    joinsProduct db pid p && decide (p.scrapedAt ≤ cutoff)))).take k

/-- Lines 253–257: the target-price condition (`<=`, inclusive; a zero
target is falsy and never evaluated). -/
def targetTriggered (a : PriceAlert) (sp : List PriceRow) : Bool :=
  match a.targetPrice with
  | none => false
  | some t => decide (t ≠ 0) && sp.any (fun p => decide (p.price ≤ t))

/-- Lines 259–276: the percentage-drop condition.  For each latest price,
`next(...)` picks the first (most recent) matching row of the limited old
set; an absent match contributes nothing. -/
def dropTriggered (a : PriceAlert) (db : DB) (now : ℤ) (sp : List PriceRow) : Bool :=
  truthyQ a.priceDropPercentage &&
    (!(alertOldPrices db a.productId (now - 7) sp.length).isEmpty &&
      sp.any (fun np =>
        match (alertOldPrices db a.productId (now - 7) sp.length).find?
            (fun p => p.productSourceId == np.productSourceId) with
        | none => false
        | some op =>
          decide (a.priceDropPercentage.getD 0 ≤
            (op.price - np.price) / op.price * 100)))

/-- The loop body of lines 235–284 for one active alert: whether it
triggered, and the updated alert row. -/
def checkAlert (db : DB) (now : ℤ) (a : PriceAlert) : Bool × PriceAlert :=
  if (alertLatestPrices db a.productId).isEmpty then (false, a)
  else
    if targetTriggered a (firstPerSource (alertLatestPrices db a.productId)) ||
        (!targetTriggered a (firstPerSource (alertLatestPrices db a.productId)) &&
          dropTriggered a db now (firstPerSource (alertLatestPrices db a.productId)))
    then
      (true,
        { a with
          lastTriggeredAt := some now
          triggerCount := a.triggerCount + 1 })
    else (false, a)

/-- Modelled from the spec: "fetch, for each source-link, the most recent
observation at or before (now − 7 days)" — per-source-link, unlimited. -/
def specOldObservation (db : DB) (psId : Nat) (cutoff : ℤ) : Option PriceRow :=
  (sortByDesc PriceRow.scrapedAt (db.prices.filter (fun p =>
    p.productSourceId == psId && decide (p.scrapedAt ≤ cutoff)))).head?

/-- Counterexample tables: product 1 with active source-links A (id 1) and
B (id 2).  A has latest price 100 at t=0 and two old observations at t=−8
and t=−9; B has latest price 50 at t=0 and one old observation (price 100)
at t=−10.  The old-price query limit of 2 returns only A's two old rows. -/
def cexDB : DB :=
  ⟨[⟨1, 1, 10, true⟩, ⟨2, 1, 20, true⟩],
   [⟨1, 100, none, none, 0⟩, ⟨2, 50, none, none, 0⟩,
    ⟨1, 100, none, none, -8⟩, ⟨1, 100, none, none, -9⟩,
    ⟨2, 100, none, none, -10⟩]⟩

/-- An active alert on product 1 with a 50% drop threshold and no target
price. -/
def cexAlert : PriceAlert := ⟨1, 1, none, some 50, true, none, 0⟩

/-- C3 counterexample: source-link B has a most-recent observation at or
before `now − 7` (price 100 at t=−10), its drop (100−50)/100×100 = 50
reaches the 50% threshold, and B is in the evaluated latest set — so the
claim says the alert triggers — yet `checkAlert` returns false, because the
old-price query is limited to 2 rows, which A's two old observations fill. -/
theorem alert_drop_limit_counterexample :
    (checkAlert cexDB 0 cexAlert).1 = false ∧
    specOldObservation cexDB 2 (0 - 7) = some ⟨2, 100, none, none, -10⟩ ∧
    ((100 : ℚ) - 50) / 100 * 100 ≥ 50 ∧
    (firstPerSource (alertLatestPrices cexDB 1)).any
      (fun np => np.productSourceId == 2) = true := by
  have h50 : decide ((cexAlert.priceDropPercentage.getD 0 : ℚ) ≤
      ((100 : ℚ) - 100) / 100 * 100) = false := by
    rw [decide_eq_false_iff_not]
    norm_num [cexAlert]
  have hdrop : dropTriggered cexAlert cexDB 0
      [⟨1, 100, none, none, 0⟩, ⟨2, 50, none, none, 0⟩] = false := by
    rw [dropTriggered]
    rw [show alertOldPrices cexDB cexAlert.productId (0 - 7)
        (List.length [(⟨1, 100, none, none, 0⟩ : PriceRow),
          ⟨2, 50, none, none, 0⟩]) =
      [⟨1, 100, none, none, -8⟩, ⟨1, 100, none, none, -9⟩] from rfl]
    simp only [List.any_cons, List.any_nil,
      show (([⟨1, 100, none, none, -8⟩, ⟨1, 100, none, none, -9⟩] :
          List PriceRow).find? (fun p => p.productSourceId == 1)) =
        some ⟨1, 100, none, none, -8⟩ from rfl,
      show (([⟨1, 100, none, none, -8⟩, ⟨1, 100, none, none, -9⟩] :
          List PriceRow).find? (fun p => p.productSourceId == 2)) =
        none from rfl]
    rw [h50]
    simp
  have hmain : (checkAlert cexDB 0 cexAlert).1 = false := by
    simp only [checkAlert]
    rw [if_neg (by decide :
      ¬ (alertLatestPrices cexDB cexAlert.productId).isEmpty = true)]
    rw [show firstPerSource (alertLatestPrices cexDB cexAlert.productId) =
      [⟨1, 100, none, none, 0⟩, ⟨2, 50, none, none, 0⟩] from rfl]
    rw [show targetTriggered cexAlert
      [⟨1, 100, none, none, 0⟩, ⟨2, 50, none, none, 0⟩] = false from rfl]
    rw [hdrop]
    simp
  exact ⟨hmain, by rfl, by norm_num, by rfl⟩

theorem insertDesc_mem {α : Type} (key : α → ℤ) (x a : α) (l : List α) :
    a ∈ insertDesc key x l ↔ a = x ∨ a ∈ l := by
  induction l with
  | nil => simp [insertDesc]
  | cons y ys ih =>
    rw [insertDesc]
    by_cases hc : key y > key x
    · rw [if_pos hc, List.mem_cons, ih, List.mem_cons]
      tauto
    · rw [if_neg hc, List.mem_cons, List.mem_cons]

theorem insertDesc_pairwise {α : Type} (key : α → ℤ) (x : α) (l : List α)
    (hl : l.Pairwise (fun a b => key b ≤ key a)) :
    (insertDesc key x l).Pairwise (fun a b => key b ≤ key a) := by
  induction l with
  | nil => simp [insertDesc]
  | cons y ys ih =>
    rw [insertDesc]
    rcases List.pairwise_cons.mp hl with ⟨hy, hys⟩
    by_cases hc : key y > key x
    · rw [if_pos hc]
      refine List.pairwise_cons.mpr ⟨?_, ih hys⟩
      intro b hb
      rcases (insertDesc_mem key x b ys).mp hb with h' | h'
      · rw [h']
        exact le_of_lt hc
      · exact hy b h'
    · rw [if_neg hc]
      refine List.pairwise_cons.mpr ⟨?_, hl⟩
      intro b hb
      rcases List.mem_cons.mp hb with h' | h'
      · rw [h']
        exact not_lt.mp hc
      · exact le_trans (hy b h') (not_lt.mp hc)

theorem sortByDesc_pairwise {α : Type} (key : α → ℤ) (l : List α) :
    (sortByDesc key l).Pairwise (fun a b => key b ≤ key a) := by
  rw [sortByDesc]
  induction l with
  | nil => exact List.Pairwise.nil
  | cons x xs ih =>
    rw [List.foldr_cons]
    exact insertDesc_pairwise key x _ ih

theorem find?_eq_head?_filter {α : Type} (p : α → Bool) (l : List α) :
    l.find? p = (l.filter p).head? := by
  induction l with
  | nil => rfl
  | cons x xs ih =>
    by_cases hx : p x = true
    · rw [List.find?_cons_of_pos _ hx, List.filter_cons_of_pos hx]
      rfl
    · rw [List.find?_cons_of_neg _ hx, List.filter_cons_of_neg hx]
      exact ih

/-- The candidate old rows the task can see for one alert: the `k` most
recent product-wide observations at or before the cutoff. -/
theorem alertOldPrices_pairwise (db : DB) (pid : Nat) (cutoff : ℤ) (k : Nat) :
    (alertOldPrices db pid cutoff k).Pairwise
      (fun a b => b.scrapedAt ≤ a.scrapedAt) := by
  rw [alertOldPrices]
  exact (sortByDesc_pairwise PriceRow.scrapedAt _).sublist (List.take_sublist _ _)

/-- C3 amended: with a configured non-zero drop threshold, a non-empty
latest set and a target condition that did not trigger, the alert triggers
exactly when some source-link of the latest set has a row of its own among
the `k` most recent product-wide observations at or before `now − 7`
(k = number of source-links with a latest price; observations of inactive
source-links are included in that pool) whose drop `(old − new)/old × 100`
reaches the threshold; the matched row is that source-link's most recent
one within the pool, and a source-link without such a row is skipped
without error. -/
theorem alert_drop_evaluation_amended (db : DB) (now : ℤ) (a : PriceAlert)
    (th : ℚ) (hth : a.priceDropPercentage = some th) (hth0 : th ≠ 0)
    (hlpne : (alertLatestPrices db a.productId).isEmpty = false)
    (htarget : targetTriggered a
      (firstPerSource (alertLatestPrices db a.productId)) = false) :
    ((checkAlert db now a).1 = true ↔
      ∃ np ∈ firstPerSource (alertLatestPrices db a.productId), ∃ op,
        ((alertOldPrices db a.productId (now - 7)
            (firstPerSource (alertLatestPrices db a.productId)).length).filter
          (fun p => p.productSourceId == np.productSourceId)).head? = some op ∧
        th ≤ (op.price - np.price) / op.price * 100) ∧
    (∀ psId : Nat, ∀ op : PriceRow,
      ((alertOldPrices db a.productId (now - 7)
          (firstPerSource (alertLatestPrices db a.productId)).length).filter
        (fun p => p.productSourceId == psId)).head? = some op →
      op ∈ alertOldPrices db a.productId (now - 7)
          (firstPerSource (alertLatestPrices db a.productId)).length ∧
      op.productSourceId = psId ∧
      ∀ q ∈ alertOldPrices db a.productId (now - 7)
          (firstPerSource (alertLatestPrices db a.productId)).length,
        q.productSourceId = psId → q.scrapedAt ≤ op.scrapedAt) := by
  set sp := firstPerSource (alertLatestPrices db a.productId) with hsp
  set pool := alertOldPrices db a.productId (now - 7) sp.length with hpool
  have hck : (checkAlert db now a).1 = dropTriggered a db now sp := by
    rw [checkAlert]
    rw [if_neg (by rw [hlpne]; exact Bool.false_ne_true)]
    rw [← hsp, htarget]
    simp only [Bool.false_or, Bool.not_false, Bool.true_and]
    by_cases hd : dropTriggered a db now sp = true
    · rw [if_pos hd, hd]
    · rw [if_neg hd]
      exact ((Bool.not_eq_true _).mp hd).symm
  have hdt : dropTriggered a db now sp =
      (!pool.isEmpty && sp.any (fun np =>
        match pool.find? (fun p => p.productSourceId == np.productSourceId) with
        | none => false
        | some op => decide (th ≤ (op.price - np.price) / op.price * 100))) := by
    rw [dropTriggered, ← hpool, hth]
    simp [truthyQ, hth0]
  constructor
  · rw [hck, hdt]
    constructor
    · intro h
      rw [Bool.and_eq_true] at h
      obtain ⟨np, hnp, hmatch⟩ := List.any_eq_true.mp h.2
      refine ⟨np, hnp, ?_⟩
      rw [find?_eq_head?_filter] at hmatch
      cases hhd : (pool.filter
          (fun p => p.productSourceId == np.productSourceId)).head? with
      | none =>
        rw [hhd] at hmatch
        simp at hmatch
      | some op =>
        rw [hhd] at hmatch
        exact ⟨op, rfl, of_decide_eq_true hmatch⟩
    · rintro ⟨np, hnp, op, hop, hdrop⟩
      have hopmem : op ∈ pool := by
        have hmemf : op ∈ pool.filter
            (fun p => p.productSourceId == np.productSourceId) := by
          cases hfl : pool.filter
              (fun p => p.productSourceId == np.productSourceId) with
          | nil =>
            rw [hfl] at hop
            simp at hop
          | cons z zs =>
            rw [hfl] at hop
            rw [List.head?_cons] at hop
            rw [← Option.some.inj hop]
            exact List.mem_cons_self _ _
        exact List.mem_of_mem_filter hmemf
      rw [Bool.and_eq_true]
      refine ⟨?_, ?_⟩
      · cases hpl : pool with
        | nil =>
          rw [hpl] at hopmem
          exact absurd hopmem (List.not_mem_nil op)
        | cons z zs => rfl
      · refine List.any_eq_true.mpr ⟨np, hnp, ?_⟩
        rw [find?_eq_head?_filter, hop]
        exact decide_eq_true hdrop
  · intro psId op hop
    have hfl0 : op ∈ pool.filter (fun p => p.productSourceId == psId) ∧
        ∀ q ∈ pool.filter (fun p => p.productSourceId == psId),
          q.scrapedAt ≤ op.scrapedAt := by
      cases hfl : pool.filter (fun p => p.productSourceId == psId) with
      | nil =>
        rw [hfl] at hop
        simp at hop
      | cons z zs =>
        rw [hfl] at hop
        rw [List.head?_cons] at hop
        have hz : z = op := Option.some.inj hop
        rw [hz] at hfl ⊢
        have hpw : (op :: zs).Pairwise
            (fun x y => y.scrapedAt ≤ x.scrapedAt) := by
          rw [← hfl]
          exact (alertOldPrices_pairwise db a.productId (now - 7)
            sp.length).sublist (List.filter_sublist _)
        rcases List.pairwise_cons.mp hpw with ⟨hz1, _⟩
        refine ⟨List.mem_cons_self _ _, ?_⟩
        intro q hq
        rcases List.mem_cons.mp hq with h' | h'
        · rw [h']
        · exact hz1 q h'
    obtain ⟨hmemf, hmax⟩ := hfl0
    have hpred := List.of_mem_filter hmemf
    refine ⟨List.mem_of_mem_filter hmemf, by simpa using hpred, ?_⟩
    intro q hq hqid
    exact hmax q (List.mem_filter.mpr ⟨hq, by simpa using hqid⟩)

/-- Tables for the amended witness: one product, one active source-link
with latest price 50 at t=0 and an old price 100 at t=−8. -/
def wdDB : DB :=
  ⟨[⟨1, 1, 10, true⟩],
   [⟨1, 50, none, none, 0⟩, ⟨1, 100, none, none, -8⟩]⟩

/-- An active alert on product 1 with a 50% drop threshold. -/
def wdAlert : PriceAlert := ⟨1, 1, none, some 50, true, none, 0⟩

/-- C3 amended witness: a 50% drop from 100 (t=−8) to 50 (t=0) triggers the
alert with threshold 50. -/
theorem alert_drop_evaluation_amended_witness :
    (checkAlert wdDB 0 wdAlert).1 = true :=
  (alert_drop_evaluation_amended wdDB 0 wdAlert 50 rfl (by norm_num)
      (by rfl) (by rfl)).1.mpr
    ⟨⟨1, 50, none, none, 0⟩, by decide, ⟨1, 100, none, none, -8⟩, by rfl,
      by norm_num⟩

end RPI
